import Mathlib

/-!
Verification of the One Pace media-manager metadata pipeline
(`src/assets/js/app.js`): the CSV parser (`Utils.parseCSV`), the
season/episode lookup builders, the season-number resolvers, the
release-row lookup, and the reconciliation/update loop of
`applyOnePaceEdits`, shallowly embedded as executable Lean functions.

Strings are modelled as `List Char`; JavaScript objects used as string
keyed dictionaries are modelled as association lists where the last
assignment wins; the cooperative cancellation flag is modelled as a
countdown of flag checks remaining until an external cancel becomes
visible (`none` = never cancelled); the media-server adapter is
modelled by a per-item success function `updateOk : Nat → Bool`.
-/

/-- Strings, modelled as lists of characters. -/
abbrev Str := List Char

/-- Whitespace recognised by the model of JavaScript `String.trim`
(space, tab, carriage return, newline — the characters that occur in
delimited spreadsheet text). -/
def isSpaceChar (c : Char) : Bool :=
  c = ' ' || c = '\t' || c = '\r' || c = '\n'

/-- Model of JavaScript `String.trim`: drop whitespace at both ends. -/
def trimStr (s : Str) : Str :=
  ((s.dropWhile isSpaceChar).reverse.dropWhile isSpaceChar).reverse

/-- Model of `replace(/"/g, "")`: remove every double quote. -/
def removeQuotes (s : Str) : Str :=
  s.filter (fun c => c ≠ '"')

/-- Model of JavaScript `String.toLowerCase` on the ASCII data used here. -/
def toLowerStr (s : Str) : Str :=
  s.map Char.toLower

/-- Worker for `splitOnChar`: `cur` is the (reversed) piece being read. -/
def splitOnCharAux (c : Char) (cur : Str) : Str → List Str
  | [] => [cur.reverse]
  | a :: rest =>
    if a = c then cur.reverse :: splitOnCharAux c [] rest
    else splitOnCharAux c (a :: cur) rest

/-- Model of JavaScript `String.split` with a one-character separator:
splits at every occurrence, keeps empty pieces, `"".split(c) = [""]`. -/
def splitOnChar (c : Char) (s : Str) : List Str :=
  splitOnCharAux c [] s

/-- Model of JavaScript `s.startsWith(pat)`. -/
def strStartsWith : Str → Str → Bool
  | _, [] => true
  | [], _ :: _ => false
  | c :: cs, p :: ps => (c == p) && strStartsWith cs ps

/-- Model of JavaScript `s.includes(pat)`: substring containment. -/
def containsSubstr (s pat : Str) : Bool :=
  match s with
  | [] => pat.isEmpty
  | _ :: rest => strStartsWith s pat || containsSubstr rest pat

/-- The non-blank lines of the input: `csvText.split("\n").filter(line => line.trim())`. -/
def nonblankLines (text : Str) : List Str :=
  (splitOnChar '\n' text).filter (fun line => !(trimStr line).isEmpty)

/-- Header cells of the header line:
`lines[0].split(",").map(h => h.trim().replace(/"/g, ""))`. -/
def csvHeaders (hd : Str) : List Str :=
  (splitOnChar ',' hd).map (fun h => removeQuotes (trimStr h))

/-- Value cells of a data line:
`line.split(",").map(v => v.trim().replace(/"/g, ""))`. -/
def csvCells (line : Str) : List Str :=
  (splitOnChar ',' line).map (fun v => removeQuotes (trimStr v))

/-- One row object: `headers.forEach((header, index) => obj[header] = values[index] || "")`,
modelled as the association list in header order; a missing or empty
trailing value becomes the empty string. -/
def csvRow (headers : List Str) (line : Str) : List (Str × Str) :=
  headers.enum.map (fun p => (p.2, (csvCells line).getD p.1 []))

/-- Model of `Utils.parseCSV` (src/assets/js/app.js lines 77–90). -/
def parseCSV (text : Str) : List (List (Str × Str)) :=
  let lines := nonblankLines text
  if lines.length < 2 then []
  else (lines.drop 1).map (csvRow (csvHeaders (lines.headD [])))

-- Sanity checks of the parser model against JavaScript behaviour.
example : parseCSV ("a,b\nx,y".toList) =
    [[("a".toList, "x".toList), ("b".toList, "y".toList)]] := by decide
example : parseCSV ("a,b\nx".toList) =
    [[("a".toList, "x".toList), ("b".toList, [])]] := by decide
example : parseCSV ("a,b\n\n  \n".toList) = [] := by decide
example : parseCSV ("\"a\" , b\n\"x,y\",z".toList) =
    [[("a".toList, "x".toList), ("b".toList, "y".toList)]] := by decide

/-- A decimal digit character. -/
def isDigitChar (c : Char) : Bool := c.isDigit

/-- Numeric value of a string of decimal digits. -/
def digitsToNat (ds : Str) : Nat :=
  ds.foldl (fun a c => a * 10 + (c.toNat - 48)) 0

/-- Worker for `natToStr`; the fuel starts above the number so recursion
is structural. -/
def natToStrCore : Nat → Nat → Str → Str
  | 0, _, acc => acc
  | fuel + 1, n, acc =>
    let d := Char.ofNat (48 + n % 10)
    if n < 10 then d :: acc else natToStrCore fuel (n / 10) (d :: acc)

/-- Model of JavaScript `Number.prototype.toString` on naturals. -/
def natToStr (n : Nat) : Str :=
  natToStrCore (n + 1) n []

/-- Model of JavaScript number-to-string on integers. -/
def intToStr (i : Int) : Str :=
  if i < 0 then '-' :: natToStr i.natAbs else natToStr i.toNat

/-- Model of JavaScript `parseInt` on the decimal fragment: trim, read an
optional sign and then the longest prefix of digits; `none` models `NaN`
(no digits at all). -/
def jsParseInt (s : Str) : Option Int :=
  let t := trimStr s
  match t with
  | '-' :: ds =>
    let d := ds.takeWhile isDigitChar
    if d.isEmpty then none else some (-(digitsToNat d : Int))
  | '+' :: ds =>
    let d := ds.takeWhile isDigitChar
    if d.isEmpty then none else some (digitsToNat d)
  | ds =>
    let d := ds.takeWhile isDigitChar
    if d.isEmpty then none else some (digitsToNat d)

/-- Model of JavaScript `ToNumber` on strings, restricted to the decimal
integer fragment occurring in this data: the whole trimmed string must
be digits (with optional sign); the empty string converts to `0`;
`none` models `NaN`. -/
def jsToNumber (s : Str) : Option Int :=
  let t := trimStr s
  if t.isEmpty then some 0
  else
    match t with
    | '-' :: ds =>
      if !ds.isEmpty && ds.all isDigitChar then some (-(digitsToNat ds : Int)) else none
    | '+' :: ds =>
      if !ds.isEmpty && ds.all isDigitChar then some (digitsToNat ds) else none
    | ds => if ds.all isDigitChar then some (digitsToNat ds) else none

/-- JavaScript loose equality `stringCell == natNumber`, as used in
`seasonMappingData.find(row => row.part == season.number)`. -/
def jsLooseEqNat (s : Str) (n : Nat) : Bool :=
  jsToNumber s == some (n : Int)

/-- Model of `episode.number.toString().padStart(2, "0")`. -/
def pad2 (n : Nat) : Str :=
  let s := natToStr n
  if s.length < 2 then '0' :: s else s

-- Sanity checks against JavaScript behaviour.
example : natToStr 0 = "0".toList := by decide
example : natToStr 105 = "105".toList := by decide
example : pad2 5 = "05".toList := by decide
example : pad2 12 = "12".toList := by decide
example : jsParseInt " 12abc".toList = some 12 := by decide
example : jsParseInt "abc".toList = none := by decide
example : jsToNumber "01".toList = some 1 := by decide
example : jsToNumber "".toList = some 0 := by decide
example : jsToNumber "12abc".toList = none := by decide

/-- JavaScript object assignment `obj[k] = v`, on an association list:
the last assignment wins on lookup. -/
def objInsert (m : List (Str × α)) (k : Str) (v : α) : List (Str × α) :=
  m ++ [(k, v)]

/-- JavaScript object read `obj[k]`: the most recent assignment, if any. -/
def objGet (m : List (Str × α)) (k : Str) : Option α :=
  (m.reverse.find? (fun p => p.1 == k)).map Prod.snd

/-- JavaScript `x || null` applied to a dictionary read whose values are
numbers (`none` on the outside = key absent / `undefined`; an inner
`none` models a stored `NaN`): `undefined`, `NaN` and `0` are all falsy
and collapse to `null`. -/
def jsOrNull : Option (Option Int) → Option Int
  | none => none
  | some none => none
  | some (some v) => if v = 0 then none else some v

/-- One parsed row of the season-mapping sheet (columns `part`,
`title_en`, `description_en`); a missing cell is the empty string. -/
structure SeasonRow where
  part : Str
  title_en : Str
  description_en : Str
deriving DecidableEq

/-- One parsed row of the episode-data sheet (columns `arc_title`,
`arc_part`, `title_en`, `description_en`). -/
structure EpisodeRow where
  arc_title : Str
  arc_part : Str
  title_en : Str
  description_en : Str
deriving DecidableEq

/-- One parsed row of the release-data sheet (columns
`"One Pace Episode"`, `"Release Date"`, `"Chapters"`, `"Episodes"`). -/
structure ReleaseRow where
  onePaceEpisode : Str
  releaseDate : Str
  chapters : Str
  episodes : Str
deriving DecidableEq

/-- The `{title, description}` value stored in the episode lookup. -/
structure EpisodeData where
  title : Str
  description : Str
deriving DecidableEq

/-- The `titleToSeason` dictionary built in `applyOnePaceEdits`
(lines 1244–1250): keep rows with a truthy `part` and `title_en`; key
`row.title_en.toLowerCase().trim()`; value `0` for the exact title
`"Specials"`, else `parseInt(row.part)` (an inner `none` is a stored
`NaN`). -/
def buildTitleToSeason (rows : List SeasonRow) : List (Str × Option Int) :=
  rows.foldl
    (fun m row =>
      if row.part ≠ [] ∧ row.title_en ≠ [] then
        objInsert m (trimStr (toLowerStr row.title_en))
          (if row.title_en = "Specials".toList then some 0 else jsParseInt row.part)
      else m)
    []

/-- Season-number resolution as written in `applyOnePaceEdits`
(lines 1262–1265): `arc === "Specials" || arc === "One Piece Fan Letter"
? 0 : titleToSeason[arc.toLowerCase()] || null`. -/
def resolveSeasonApply (arc : Str) (titleToSeason : List (Str × Option Int)) : Option Int :=
  if arc = "Specials".toList ∨ arc = "One Piece Fan Letter".toList then some 0
  else jsOrNull (objGet titleToSeason (toLowerStr arc))

/-- Season-number resolution as written in `renameMediaFiles`
(lines 1122–1125): only `"Specials"` is special-cased;
`arcTitle === "Specials" ? 0 : titleToSeason[arcTitle.toLowerCase()] || null`. -/
def resolveSeasonRename (arc : Str) (titleToSeason : List (Str × Option Int)) : Option Int :=
  if arc = "Specials".toList then some 0
  else jsOrNull (objGet titleToSeason (toLowerStr arc))

/-- One row's contribution to the `episodeLookup` dictionary built in
`applyOnePaceEdits` (lines 1253–1271): a row with a blank (falsy)
trimmed `arc_title`, raw `arc_part` or `title_en` is skipped; the
season number is resolved via `resolveSeasonApply`; an unresolvable row
is skipped; the key is the template literal
`` `${seasonNum}-${epPart}` `` — the RAW `arc_part` string, not an
integer parse of it. -/
def episodeLookupStep (titleToSeason : List (Str × Option Int))
    (lk : List (Str × EpisodeData)) (row : EpisodeRow) : List (Str × EpisodeData) :=
  if trimStr row.arc_title = [] ∨ row.arc_part = [] ∨ row.title_en = [] then lk
  else
    match resolveSeasonApply (trimStr row.arc_title) titleToSeason with
    | some seasonNum =>
        objInsert lk (intToStr seasonNum ++ '-' :: row.arc_part)
          ⟨row.title_en, row.description_en⟩
    | none => lk

/-- The fold of `episodeLookupStep` over the episode rows (the
`episodeData.forEach` of lines 1253–1271). -/
def buildEpisodeLookup (rows : List EpisodeRow) (titleToSeason : List (Str × Option Int)) :
    List (Str × EpisodeData) :=
  rows.foldl (episodeLookupStep titleToSeason) []

/-- The release-row lookup used for descriptions and air dates
(lines 1390–1395 and 1411–1416):
`releaseData.find(row => row["One Pace Episode"]?.includes(episode.number.toString().padStart(2, "0")))`. -/
def releaseLookup (rows : List ReleaseRow) (epNumber : Nat) : Option ReleaseRow :=
  rows.find? (fun row => containsSubstr row.onePaceEpisode (pad2 epNumber))

-- Sanity checks.
example :
    buildTitleToSeason [⟨"1".toList, "East Blue".toList, []⟩] =
      [("east blue".toList, some 1)] := by decide
example :
    resolveSeasonApply "East Blue".toList
      (buildTitleToSeason [⟨"1".toList, "East Blue".toList, []⟩]) = some 1 := by decide
example :
    buildEpisodeLookup
      [⟨"East Blue".toList, "3".toList, "Romance Dawn".toList, "d".toList⟩]
      (buildTitleToSeason [⟨"1".toList, "East Blue".toList, []⟩]) =
      [("1-3".toList, ⟨"Romance Dawn".toList, "d".toList⟩)] := by decide
example : containsSubstr "Episode 105".toList (pad2 5) = true := by decide
example : containsSubstr "Episode 05".toList (pad2 5) = true := by decide
example : containsSubstr "Episode 15".toList (pad2 5) = false := by decide

/-- The media-server service selected in the UI. -/
inductive Service where
  | plex
  | jellyfin
deriving DecidableEq

/-- The update options read from the checkboxes (lines 1234–1241). -/
structure UpdateOptions where
  title : Bool
  seasonTitle : Bool
  description : Bool
  date : Bool
  posters : Bool
  dryRun : Bool
deriving DecidableEq

/-- A catalog episode as returned by the show-metadata fetch. -/
structure Episode where
  id : Nat
  number : Nat
  title : Str
  summary : Str
  originallyAvailableAt : Str
deriving DecidableEq

/-- A catalog season as returned by the show-metadata fetch. -/
structure Season where
  id : Nat
  number : Nat
  title : Str
  episodes : List Episode
deriving DecidableEq

/-- Log levels of `writeOutput`. -/
inductive Level where
  | info
  | success
  | warning
  | error
deriving DecidableEq

/-- One `writeOutput` line of the run, abstracted to its kind and the
data interpolated into the message. -/
inductive LogEvent where
  | loadedSheets
  | loadedMetadata (numSeasons : Nat)
  | cancelledByUser
  | seasonTitleWouldUpdate (seasonNum : Nat) (newTitle : Str)
  | seasonTitleUpdated (seasonNum : Nat) (newTitle : Str)
  | seasonTitleUpdateFailed (seasonNum : Nat)
  | seasonDescWouldUpdate (seasonNum : Nat)
  | seasonDescUpdated (seasonNum : Nat)
  | seasonDescUpdateFailed (seasonNum : Nat)
  | episodeNoData (seasonNum epNum : Nat)
  | episodeWouldUpdate (seasonNum epNum : Nat) (fields : List Str)
  | episodeUpdated (seasonNum epNum : Nat) (fields : List Str)
  | episodeUpdateFailed (seasonNum epNum : Nat)
  | episodeNoUpdates (seasonNum epNum : Nat)
  | finishedSummary (totalUpdates : Nat)
  | errorDuringUpdate
deriving DecidableEq

/-- The level each log line is written with in the source. -/
def LogEvent.level : LogEvent → Level
  | .loadedSheets => .success
  | .loadedMetadata _ => .success
  | .cancelledByUser => .warning
  | .seasonTitleWouldUpdate _ _ => .info
  | .seasonTitleUpdated _ _ => .success
  | .seasonTitleUpdateFailed _ => .error
  | .seasonDescWouldUpdate _ => .info
  | .seasonDescUpdated _ => .success
  | .seasonDescUpdateFailed _ => .error
  | .episodeNoData _ _ => .warning
  | .episodeWouldUpdate _ _ _ => .info
  | .episodeUpdated _ _ _ => .success
  | .episodeUpdateFailed _ _ => .error
  | .episodeNoUpdates _ _ => .info
  | .finishedSummary _ => .success
  | .errorDuringUpdate => .error

/-- The `updates` object accumulated per episode (fields in insertion
order: `title`, `summary`, `originallyAvailableAt`). -/
structure EpisodeUpdates where
  title : Option Str
  summary : Option Str
  originallyAvailableAt : Option Str
deriving DecidableEq

/-- Whether no field was set: the negation of the source's `willUpdate`
flag (`willUpdate` is set exactly when some field of `updates` is set). -/
def EpisodeUpdates.isEmpty (u : EpisodeUpdates) : Bool :=
  u.title.isNone && u.summary.isNone && u.originallyAvailableAt.isNone

/-- Model of `Object.keys(updates)` in insertion order. -/
def EpisodeUpdates.fields (u : EpisodeUpdates) : List Str :=
  (match u.title with | some _ => ["title".toList] | none => []) ++
  (match u.summary with | some _ => ["summary".toList] | none => []) ++
  (match u.originallyAvailableAt with
    | some _ => ["originallyAvailableAt".toList] | none => [])

/-- One attempted `updateMetadata` call on the media server. -/
inductive UpdateCall where
  | seasonTitle (itemId : Nat) (title : Str)
  | seasonSummary (itemId : Nat) (summary : Str)
  | episode (itemId : Nat) (updates : EpisodeUpdates)
deriving DecidableEq

/-- The per-run context the processing loop reads. -/
structure RunEnv where
  service : Service
  options : UpdateOptions
  seasonMapping : List SeasonRow
  releaseData : List ReleaseRow
  updateOk : Nat → Bool

/-- The mutable run outcome threaded through the loop: the
`totalUpdates` counter, the log stream, and the attempted update calls. -/
structure RunAcc where
  totalUpdates : Nat
  logs : List LogEvent
  calls : List UpdateCall
deriving DecidableEq

/-- One read of `this.state.operationCancelled`, modelled as a countdown
of checks remaining before an external cancel becomes visible; once the
countdown hits zero the flag reads true forever (the source only ever
sets the flag during a run, never clears it). -/
def checkCancel : Option Nat → Bool × Option Nat
  | none => (false, none)
  | some 0 => (true, some 0)
  | some (n + 1) => (false, some n)

/-- Model of `seasonMappingData.find(row => row.part == season.number)` — note
the loose `==` between the string cell and the numeric season number. -/
def seasonInfoFor (env : RunEnv) (season : Season) : Option SeasonRow :=
  env.seasonMapping.find? (fun row => jsLooseEqNat row.part season.number)

/-- The season-title update block (lines 1294–1326): gated on the
option, a found row with truthy `title_en`, and inequality with the
catalog title; dry run only logs; live run calls the adapter only for
Plex, and a thrown call logs an error without incrementing the counter. -/
def seasonTitlePhase (env : RunEnv) (season : Season) (acc : RunAcc) : RunAcc :=
  match seasonInfoFor env season with
  | some si =>
    if env.options.seasonTitle ∧ si.title_en ≠ [] ∧ si.title_en ≠ season.title then
      if env.options.dryRun then
        { acc with logs := acc.logs ++ [.seasonTitleWouldUpdate season.number si.title_en] }
      else if env.service = Service.plex then
        if env.updateOk season.id then
          { acc with
            calls := acc.calls ++ [.seasonTitle season.id si.title_en]
            logs := acc.logs ++ [.seasonTitleUpdated season.number si.title_en]
            totalUpdates := acc.totalUpdates + 1 }
        else
          { acc with
            calls := acc.calls ++ [.seasonTitle season.id si.title_en]
            logs := acc.logs ++ [.seasonTitleUpdateFailed season.number] }
      else
        { acc with
          logs := acc.logs ++ [.seasonTitleUpdated season.number si.title_en]
          totalUpdates := acc.totalUpdates + 1 }
    else acc
  | none => acc

/-- The season-description update block (lines 1328–1364): gated on the
option and a found row with truthy `description_en` — the source never
compares with the current summary here. -/
def seasonDescPhase (env : RunEnv) (season : Season) (acc : RunAcc) : RunAcc :=
  match seasonInfoFor env season with
  | some si =>
    if env.options.description ∧ si.description_en ≠ [] then
      if env.options.dryRun then
        { acc with logs := acc.logs ++ [.seasonDescWouldUpdate season.number] }
      else if env.service = Service.plex then
        if env.updateOk season.id then
          { acc with
            calls := acc.calls ++ [.seasonSummary season.id si.description_en]
            logs := acc.logs ++ [.seasonDescUpdated season.number]
            totalUpdates := acc.totalUpdates + 1 }
        else
          { acc with
            calls := acc.calls ++ [.seasonSummary season.id si.description_en]
            logs := acc.logs ++ [.seasonDescUpdateFailed season.number] }
      else
        { acc with
          logs := acc.logs ++ [.seasonDescUpdated season.number]
          totalUpdates := acc.totalUpdates + 1 }
    else acc
  | none => acc

/-- The `episodeDescription` value: the lookup description, appended with
`"\nChapters: …"` and `"\nEpisodes: …"` lines when a release row was
found and has those truthy cells (lines 1397–1403). -/
def episodeDescriptionWith (epData : EpisodeData) (ri : Option ReleaseRow) : Str :=
  match ri with
  | some r =>
    (epData.description ++
      (if r.chapters ≠ [] then "\nChapters: ".toList ++ r.chapters else [])) ++
      (if r.episodes ≠ [] then "\nEpisodes: ".toList ++ r.episodes else [])
  | none => epData.description

/-- The per-episode field diff (lines 1382–1428): title iff the option
is set and titles differ; summary iff the option is set, a lookup
description exists and the enriched description differs; air date iff
the option is set, a release row with a truthy non-"To Be Released"
date exists and it differs from the catalog date. -/
def computeUpdates (env : RunEnv) (ep : Episode) (epData : EpisodeData) : EpisodeUpdates :=
  let u0 : EpisodeUpdates := ⟨none, none, none⟩
  let u1 :=
    if env.options.title ∧ ep.title ≠ epData.title then
      { u0 with title := some epData.title } else u0
  let u2 :=
    if env.options.description ∧ epData.description ≠ [] then
      let d := episodeDescriptionWith epData (releaseLookup env.releaseData ep.number)
      if ep.summary ≠ d then { u1 with summary := some d } else u1
    else u1
  if env.options.date then
    match releaseLookup env.releaseData ep.number with
    | some ri =>
      if ri.releaseDate ≠ [] ∧
          containsSubstr ri.releaseDate "To Be Released".toList = false ∧
          ep.originallyAvailableAt ≠ ri.releaseDate then
        { u2 with originallyAvailableAt := some ri.releaseDate }
      else u2
    | none => u2
  else u2

/-- The body of the episode loop after the cancellation check
(lines 1370–1480): missing lookup entry logs a warning and skips; an
empty diff logs "no updates needed"; otherwise dry run only logs, and a
live run calls the adapter only for Plex — a successful (or absent,
for Jellyfin) call logs success and increments the counter, a thrown
call logs an error and continues. -/
def processEpisodeBody (env : RunEnv) (lookup : List (Str × EpisodeData))
    (season : Season) (ep : Episode) (acc : RunAcc) : RunAcc :=
  match objGet lookup (natToStr season.number ++ '-' :: natToStr ep.number) with
  | none => { acc with logs := acc.logs ++ [.episodeNoData season.number ep.number] }
  | some epData =>
    let u := computeUpdates env ep epData
    if u.isEmpty then
      { acc with logs := acc.logs ++ [.episodeNoUpdates season.number ep.number] }
    else if env.options.dryRun then
      { acc with logs := acc.logs ++ [.episodeWouldUpdate season.number ep.number u.fields] }
    else if env.service = Service.plex then
      if env.updateOk ep.id then
        { acc with
          calls := acc.calls ++ [.episode ep.id u]
          logs := acc.logs ++ [.episodeUpdated season.number ep.number u.fields]
          totalUpdates := acc.totalUpdates + 1 }
      else
        { acc with
          calls := acc.calls ++ [.episode ep.id u]
          logs := acc.logs ++ [.episodeUpdateFailed season.number ep.number] }
    else
      { acc with
        logs := acc.logs ++ [.episodeUpdated season.number ep.number u.fields]
        totalUpdates := acc.totalUpdates + 1 }

/-- The episode loop (lines 1367–1481): the cancellation flag is read
before each episode; if set, the loop breaks with no log line. -/
def processEpisodes (env : RunEnv) (lookup : List (Str × EpisodeData)) (season : Season) :
    List Episode → Option Nat → RunAcc → Option Nat × RunAcc
  | [], fl, acc => (fl, acc)
  | ep :: rest, fl, acc =>
    match checkCancel fl with
    | (true, fl') => (fl', acc)
    | (false, fl') =>
        processEpisodes env lookup season rest fl'
          (processEpisodeBody env lookup season ep acc)

/-- One iteration of the season loop after the cancellation check:
season title block, season description block, then the episode loop. -/
def processSeason (env : RunEnv) (lookup : List (Str × EpisodeData)) (season : Season)
    (fl : Option Nat) (acc : RunAcc) : Option Nat × RunAcc :=
  processEpisodes env lookup season season.episodes fl
    (seasonDescPhase env season (seasonTitlePhase env season acc))

/-- The season loop (lines 1278–1484): the cancellation flag is read at
the top of each iteration; if set, "Operation cancelled by user" is
logged and the loop breaks. -/
def processSeasons (env : RunEnv) (lookup : List (Str × EpisodeData)) :
    List Season → Option Nat → RunAcc → Option Nat × RunAcc
  | [], fl, acc => (fl, acc)
  | season :: rest, fl, acc =>
    match checkCancel fl with
    | (true, fl') => (fl', { acc with logs := acc.logs ++ [.cancelledByUser] })
    | (false, fl') =>
        let r := processSeason env lookup season fl' acc
        processSeasons env lookup rest r.1 r.2

/-- The three spreadsheet datasets, as loaded (or already memoized). -/
structure SheetsData where
  seasonMapping : List SeasonRow
  episodeData : List EpisodeRow
  releaseData : List ReleaseRow

/-- Everything a single invocation of `applyOnePaceEdits` depends on:
the selected service, the checkbox options, the outcome of the sheets
load, the outcome of the show-metadata fetch, the adapter's per-item
success behaviour, and the cancellation countdown. -/
structure Env where
  service : Service
  options : UpdateOptions
  sheetsFetch : Except Unit SheetsData
  showFetch : Except Unit (List Season)
  updateOk : Nat → Bool
  cancelAfterChecks : Option Nat

/-- The externally observable outcome of a run. -/
structure RunResult where
  logs : List LogEvent
  calls : List UpdateCall
  totalUpdates : Nat
deriving DecidableEq

/-- Model of `applyOnePaceEdits` (lines 1181–1500): a failed sheets load
or show-metadata fetch throws into the outer catch — the run aborts
with an error log and nothing processed; otherwise the lookups are
built, the season loop runs, and the final summary reports the counter. -/
def applyOnePaceEdits (env : Env) : RunResult :=
  match env.sheetsFetch with
  | .error _ => ⟨[.errorDuringUpdate], [], 0⟩
  | .ok sheets =>
    match env.showFetch with
    | .error _ => ⟨[.loadedSheets, .errorDuringUpdate], [], 0⟩
    | .ok seasons =>
      let titleToSeason := buildTitleToSeason sheets.seasonMapping
      let lookup := buildEpisodeLookup sheets.episodeData titleToSeason
      let renv : RunEnv :=
        ⟨env.service, env.options, sheets.seasonMapping, sheets.releaseData, env.updateOk⟩
      let r :=
        processSeasons renv lookup seasons env.cancelAfterChecks
          ⟨0, [.loadedSheets, .loadedMetadata seasons.length], []⟩
      ⟨r.2.logs ++ [.finishedSummary r.2.totalUpdates], r.2.calls, r.2.totalUpdates⟩

-- End-to-end sanity check, the scenario of spec §8: one season-map row
-- (East Blue, part 1), one episode row (East Blue part 3, "Romance
-- Dawn"), a catalog with season 1 holding episode 3 titled "Old
-- Title"; only updateTitle set, live Plex run: one episode update call
-- and a final count of 1.
example :
    applyOnePaceEdits
      ⟨Service.plex, ⟨true, false, false, false, false, false⟩,
        .ok ⟨[⟨"1".toList, "East Blue".toList, []⟩],
             [⟨"East Blue".toList, "3".toList, "Romance Dawn".toList, []⟩], []⟩,
        .ok [⟨10, 1, "Season 1".toList, [⟨11, 3, "Old Title".toList, [], []⟩]⟩],
        fun _ => true, none⟩ =
      ⟨[.loadedSheets, .loadedMetadata 1,
        .episodeUpdated 1 3 ["title".toList], .finishedSummary 1],
       [.episode 11 ⟨some "Romance Dawn".toList, none, none⟩], 1⟩ := by decide

-- Dry-run variant of the same scenario: the diff is logged, nothing
-- is called, the counter stays 0.
example :
    applyOnePaceEdits
      ⟨Service.plex, ⟨true, false, false, false, false, true⟩,
        .ok ⟨[⟨"1".toList, "East Blue".toList, []⟩],
             [⟨"East Blue".toList, "3".toList, "Romance Dawn".toList, []⟩], []⟩,
        .ok [⟨10, 1, "Season 1".toList, [⟨11, 3, "Old Title".toList, [], []⟩]⟩],
        fun _ => true, none⟩ =
      ⟨[.loadedSheets, .loadedMetadata 1,
        .episodeWouldUpdate 1 3 ["title".toList], .finishedSummary 0],
       [], 0⟩ := by decide

/-- The release row labelled "Episode 105" used to test the containment
match. -/
def releaseRow105 : ReleaseRow :=
  ⟨"Episode 105".toList, "2021-01-01".toList, [], []⟩

/-- The release row labelled "Episode 05". -/
def releaseRow05 : ReleaseRow :=
  ⟨"Episode 05".toList, "2021-01-01".toList, [], []⟩

/-- C1, counterexample to the claim as stated: the release lookup for
episode number 5 DOES match a row labelled "Episode 105", because
"105" contains the zero-padded token "05" as a substring. -/
theorem c1_counterexample : releaseLookup [releaseRow105] 5 = some releaseRow105 := by
  decide

/-- C1, amended: the release lookup selects the first release row whose
episode-label cell contains the two-digit zero-padded form of the
episode number as a substring — some row is selected exactly when some
row's label contains the token, and any selected row's label contains
it; in particular a row labelled "Episode 105" IS matched for episode
number 5. -/
theorem c1_release_containment (rows : List ReleaseRow) (n : Nat) :
    ((releaseLookup rows n).isSome ↔
      ∃ r ∈ rows, containsSubstr r.onePaceEpisode (pad2 n) = true) ∧
    (∀ r, releaseLookup rows n = some r →
      containsSubstr r.onePaceEpisode (pad2 n) = true) := by
  constructor
  · simp [releaseLookup, List.find?_isSome]
  · intro r hr
    have hr' : rows.find? (fun row => containsSubstr row.onePaceEpisode (pad2 n)) = some r := hr
    have hp := List.find?_some hr'
    exact hp

/-- C1, witness: on a concrete one-row dataset labelled "Episode 05",
the characterization yields a match for episode number 5. -/
theorem c1_witness : (releaseLookup [releaseRow05] 5).isSome = true := by
  have h := (c1_release_containment [releaseRow05] 5).1
  exact h.mpr ⟨releaseRow05, by decide, by decide⟩

/-- C6, counterexample to the claim as stated: at the resolver written
in `renameMediaFiles` (one of the two cited code sites), the arc title
"One Piece Fan Letter" is NOT special-cased — with a season map not
containing it (here the empty map) it resolves to null, not 0. -/
theorem c6_counterexample : resolveSeasonRename "One Piece Fan Letter".toList [] = none := by
  decide

/-- C6, amended: in `applyOnePaceEdits` both "Specials" and "One Piece
Fan Letter" resolve to season 0 regardless of the map, and an arc
absent from the map (such as "Unknown Arc X") resolves to null; in
`renameMediaFiles` only "Specials" is special-cased — "One Piece Fan
Letter" resolves to null whenever it is absent from the map. -/
theorem c6_sentinel_resolution (m : List (Str × Option Int)) :
    resolveSeasonApply "Specials".toList m = some 0 ∧
    resolveSeasonApply "One Piece Fan Letter".toList m = some 0 ∧
    resolveSeasonRename "Specials".toList m = some 0 ∧
    (objGet m (toLowerStr "Unknown Arc X".toList) = none →
      resolveSeasonApply "Unknown Arc X".toList m = none ∧
      resolveSeasonRename "Unknown Arc X".toList m = none) ∧
    (objGet m (toLowerStr "One Piece Fan Letter".toList) = none →
      resolveSeasonRename "One Piece Fan Letter".toList m = none) := by
  refine ⟨by simp [resolveSeasonApply], by simp [resolveSeasonApply],
    by simp [resolveSeasonRename], ?_, ?_⟩
  · intro h
    constructor
    · simp only [resolveSeasonApply]
      rw [if_neg (by decide), h]
      rfl
    · simp only [resolveSeasonRename]
      rw [if_neg (by decide), h]
      rfl
  · intro h
    simp only [resolveSeasonRename]
    rw [if_neg (by decide), h]
    rfl

/-- C6, witness: the amended statement evaluated at the empty season
map. -/
theorem c6_witness :
    resolveSeasonApply "Specials".toList [] = some 0 ∧
    resolveSeasonApply "One Piece Fan Letter".toList [] = some 0 ∧
    resolveSeasonRename "Specials".toList [] = some 0 ∧
    resolveSeasonApply "Unknown Arc X".toList [] = none ∧
    resolveSeasonRename "Unknown Arc X".toList [] = none ∧
    resolveSeasonRename "One Piece Fan Letter".toList [] = none := by
  obtain ⟨a, b, c, d, e⟩ := c6_sentinel_resolution []
  exact ⟨a, b, c, (d rfl).1, (d rfl).2, e rfl⟩

/-- The one-row season map and zero-padded episode row used to test the
lookup key composition. -/
def c3SeasonRows : List SeasonRow := [⟨"1".toList, "East Blue".toList, []⟩]

/-- An episode row whose `arc_part` spreadsheet cell is the zero-padded
string "03". -/
def c3Row : EpisodeRow :=
  ⟨"East Blue".toList, "03".toList, "Romance Dawn".toList, "d".toList⟩

/-- C3, counterexample to the claim as stated: with `arc_part = "03"`
the built lookup has its entry under the key "1-03" (raw string
interpolation), and the engine's key for season 1, catalog episode
number 3 — `"1-3"` — finds nothing: the spreadsheet cell "03" does NOT
produce the same key as the catalog's integer 3. -/
theorem c3_counterexample :
    objGet (buildEpisodeLookup [c3Row] (buildTitleToSeason c3SeasonRows))
        (natToStr 1 ++ '-' :: natToStr 3) = none ∧
    objGet (buildEpisodeLookup [c3Row] (buildTitleToSeason c3SeasonRows))
        ("1-03".toList) = some ⟨"Romance Dawn".toList, "d".toList⟩ := by
  decide

/-- C3, amended: the key of an episode-lookup entry is composed from the
resolved season number and the row's `arc_part` cell taken as a RAW
string (no integer parse, no normalization), so a zero-padded cell such
as "03" yields a key different from the one the engine computes from
the catalog's integer episode number. -/
theorem c3_raw_key (titleToSeason : List (Str × Option Int)) (row : EpisodeRow) (s : Int)
    (h1 : trimStr row.arc_title ≠ []) (h2 : row.arc_part ≠ []) (h3 : row.title_en ≠ [])
    (hs : resolveSeasonApply (trimStr row.arc_title) titleToSeason = some s) :
    buildEpisodeLookup [row] titleToSeason =
      [(intToStr s ++ '-' :: row.arc_part, ⟨row.title_en, row.description_en⟩)] := by
  simp [buildEpisodeLookup, episodeLookupStep, h1, h2, h3, hs, objInsert]

/-- C3, witness: the amended statement at the concrete zero-padded row,
whose key evaluates to "1-03". -/
theorem c3_witness :
    buildEpisodeLookup [c3Row] (buildTitleToSeason c3SeasonRows) =
      [(intToStr 1 ++ '-' :: c3Row.arc_part, ⟨c3Row.title_en, c3Row.description_en⟩)] := by
  exact c3_raw_key (buildTitleToSeason c3SeasonRows) c3Row 1
    (by decide) (by decide) (by decide) (by decide)

/-- A row survives the episode-lookup build: its trimmed `arc_title`,
raw `arc_part` and `title_en` are all truthy and its arc resolves to a
season number. -/
def keptEpisodeRow (titleToSeason : List (Str × Option Int)) (row : EpisodeRow) : Bool :=
  (!(decide (trimStr row.arc_title = [] ∨ row.arc_part = [] ∨ row.title_en = []))) &&
  (resolveSeasonApply (trimStr row.arc_title) titleToSeason).isSome

theorem episodeLookupStep_not_kept (titleToSeason : List (Str × Option Int))
    (lk : List (Str × EpisodeData)) (row : EpisodeRow)
    (h : keptEpisodeRow titleToSeason row = false) :
    episodeLookupStep titleToSeason lk row = lk := by
  unfold keptEpisodeRow at h
  unfold episodeLookupStep
  by_cases hc : trimStr row.arc_title = [] ∨ row.arc_part = [] ∨ row.title_en = []
  · rw [if_pos hc]
  · rw [if_neg hc]
    simp only [hc, decide_False, Bool.not_false, Bool.true_and] at h
    cases hr : resolveSeasonApply (trimStr row.arc_title) titleToSeason with
    | none => rfl
    | some s => rw [hr] at h; simp at h

theorem foldl_episodeLookupStep_filter (titleToSeason : List (Str × Option Int)) :
    ∀ (rows : List EpisodeRow) (acc : List (Str × EpisodeData)),
      rows.foldl (episodeLookupStep titleToSeason) acc =
        (rows.filter (keptEpisodeRow titleToSeason)).foldl
          (episodeLookupStep titleToSeason) acc := by
  intro rows
  induction rows with
  | nil => intro acc; rfl
  | cons r rs ih =>
    intro acc
    by_cases hk : keptEpisodeRow titleToSeason r = true
    · simp [List.foldl_cons, List.filter_cons, hk, ih]
    · have hk' : keptEpisodeRow titleToSeason r = false := by
        revert hk; cases keptEpisodeRow titleToSeason r <;> simp
      simp [List.foldl_cons, List.filter_cons, hk',
        episodeLookupStep_not_kept titleToSeason acc r hk', ih]

/-- C7, counterexample to the claim as stated: a full run whose episode
data consists of one row with the unresolvable arc "Unknown Arc X":
the row is dropped from the lookup, and the run's log stream contains
ZERO warning-level lines — the drop is silent, no warning accompanies
it. -/
theorem c7_counterexample :
    buildEpisodeLookup [⟨"Unknown Arc X".toList, "1".toList, "T".toList, "D".toList⟩] [] = [] ∧
    (applyOnePaceEdits
        ⟨Service.plex, ⟨false, false, false, false, false, false⟩,
          .ok ⟨[], [⟨"Unknown Arc X".toList, "1".toList, "T".toList, "D".toList⟩], []⟩,
          .ok [], fun _ => true, none⟩).logs.countP
      (fun e => e.level == Level.warning) = 0 := by
  decide

/-- C7, amended: an episode row whose arc cannot be resolved (or whose
required cells are blank) is dropped from the lookup SILENTLY — the
lookup, and with it the entire run (its log stream included), is
identical to the one built from only the surviving rows; no warning is
logged for the dropped rows. -/
theorem c7_silent_drop (titleToSeason : List (Str × Option Int)) (rows : List EpisodeRow)
    (svc : Service) (o : UpdateOptions) (sm : List SeasonRow) (rd : List ReleaseRow)
    (shf : Except Unit (List Season)) (uOk : Nat → Bool) (cA : Option Nat) :
    buildEpisodeLookup rows titleToSeason =
      buildEpisodeLookup (rows.filter (keptEpisodeRow titleToSeason)) titleToSeason ∧
    applyOnePaceEdits ⟨svc, o, .ok ⟨sm, rows, rd⟩, shf, uOk, cA⟩ =
      applyOnePaceEdits
        ⟨svc, o, .ok ⟨sm, rows.filter (keptEpisodeRow (buildTitleToSeason sm)), rd⟩,
          shf, uOk, cA⟩ := by
  constructor
  · exact foldl_episodeLookupStep_filter titleToSeason rows []
  · cases shf with
    | error e => rfl
    | ok seasons =>
      simp only [applyOnePaceEdits]
      rw [show buildEpisodeLookup rows (buildTitleToSeason sm) =
            buildEpisodeLookup (rows.filter (keptEpisodeRow (buildTitleToSeason sm)))
              (buildTitleToSeason sm) from
          foldl_episodeLookupStep_filter (buildTitleToSeason sm) rows []]

/-- C7, witness: the amended statement at the concrete unresolvable
row (empty map, trivial run parameters). -/
theorem c7_witness :
    buildEpisodeLookup [⟨"Unknown Arc X".toList, "1".toList, "T".toList, "D".toList⟩] [] =
      buildEpisodeLookup
        (([⟨"Unknown Arc X".toList, "1".toList, "T".toList, "D".toList⟩] :
            List EpisodeRow).filter (keptEpisodeRow [])) [] ∧
    applyOnePaceEdits
        ⟨Service.plex, ⟨false, false, false, false, false, false⟩,
          .ok ⟨[], [⟨"Unknown Arc X".toList, "1".toList, "T".toList, "D".toList⟩], []⟩,
          .ok [], fun _ => true, none⟩ =
      applyOnePaceEdits
        ⟨Service.plex, ⟨false, false, false, false, false, false⟩,
          .ok ⟨[], ([⟨"Unknown Arc X".toList, "1".toList, "T".toList, "D".toList⟩] :
            List EpisodeRow).filter (keptEpisodeRow (buildTitleToSeason [])), []⟩,
          .ok [], fun _ => true, none⟩ :=
  c7_silent_drop [] [⟨"Unknown Arc X".toList, "1".toList, "T".toList, "D".toList⟩]
    Service.plex ⟨false, false, false, false, false, false⟩ [] []
    (.ok []) (fun _ => true) none

theorem mem_splitOnCharAux (c : Char) :
    ∀ (s cur : Str) (p : Str), c ∉ cur → p ∈ splitOnCharAux c cur s → c ∉ p := by
  intro s
  induction s with
  | nil =>
    intro cur p hcur hp
    simp only [splitOnCharAux, List.mem_singleton] at hp
    subst hp
    simpa using hcur
  | cons a rest ih =>
    intro cur p hcur hp
    simp only [splitOnCharAux] at hp
    by_cases hac : a = c
    · rw [if_pos hac] at hp
      rcases List.mem_cons.mp hp with h | h
      · subst h; simpa using hcur
      · exact ih [] p (by simp) h
    · rw [if_neg hac] at hp
      refine ih (a :: cur) p ?_ hp
      intro hmem
      rcases List.mem_cons.mp hmem with h | h
      · exact hac h.symm
      · exact hcur h

theorem mem_splitOnChar (c : Char) (s p : Str) (hp : p ∈ splitOnChar c s) : c ∉ p :=
  mem_splitOnCharAux c s [] p (by simp) hp

theorem mem_trimStr (x : Char) (s : Str) (hx : x ∈ trimStr s) : x ∈ s := by
  unfold trimStr at hx
  have h1 := List.mem_reverse.mp hx
  have h2 := (List.dropWhile_sublist _).subset h1
  have h3 := List.mem_reverse.mp h2
  exact (List.dropWhile_sublist _).subset h3

theorem mem_removeQuotes (x : Char) (s : Str) (hx : x ∈ removeQuotes s) :
    x ∈ s ∧ x ≠ '"' := by
  simpa [removeQuotes] using List.mem_filter.mp hx

/-- Every piece of a comma-split line, after trim and quote removal,
contains neither a comma nor a double quote. -/
theorem clean_of_mem_cells (s v : Str)
    (hv : v ∈ (splitOnChar ',' s).map (fun t => removeQuotes (trimStr t))) :
    ',' ∉ v ∧ '"' ∉ v := by
  rcases List.mem_map.mp hv with ⟨piece, hpiece, rfl⟩
  constructor
  · intro hc
    exact mem_splitOnChar ',' s piece hpiece
      (mem_trimStr ',' piece (mem_removeQuotes ',' (trimStr piece) hc).1)
  · intro hq
    exact (mem_removeQuotes '"' (trimStr piece) hq).2 rfl

theorem mem_getD_nil (l : List Str) (n : Nat) : l.getD n [] ∈ l ∨ l.getD n [] = [] := by
  rw [List.getD_eq_getElem?_getD]
  cases h : l[n]? with
  | none => right; rfl
  | some v =>
    left
    simpa using List.getElem?_mem h

/-- C10: every key and every value of every parsed row is free of
double quotes and commas (quotes are stripped globally, rows are split
at every comma), and a quoted field containing a comma is split across
two cells rather than preserved: `"x,y"` parses into cells `x` and `y`. -/
theorem c10_quotes_and_commas (text : Str) (row : List (Str × Str)) (kv : Str × Str) :
    (row ∈ parseCSV text → kv ∈ row →
      ',' ∉ kv.1 ∧ '"' ∉ kv.1 ∧ ',' ∉ kv.2 ∧ '"' ∉ kv.2) ∧
    parseCSV ("a,b\n\"x,y\",z".toList) =
      [[("a".toList, "x".toList), ("b".toList, "y".toList)]] := by
  constructor
  · intro hrow hkv
    simp only [parseCSV] at hrow
    split at hrow
    · simp at hrow
    · rcases List.mem_map.mp hrow with ⟨line, hline, rfl⟩
      rcases List.mem_map.mp hkv with ⟨p, hp, rfl⟩
      have hfst : p.2 ∈ csvHeaders ((nonblankLines text).headD []) := by
        have := List.mem_map_of_mem Prod.snd hp
        rwa [List.enum_map_snd] at this
      have hhead := clean_of_mem_cells ((nonblankLines text).headD []) p.2 hfst
      have hval : ',' ∉ (csvCells line).getD p.1 [] ∧ '"' ∉ (csvCells line).getD p.1 [] := by
        rcases mem_getD_nil (csvCells line) p.1 with h | h
        · exact clean_of_mem_cells line _ h
        · rw [h]; simp
      exact ⟨hhead.1, hhead.2, hval.1, hval.2⟩
  · decide

/-- C10, witness: the general statement applied to the concrete quoted
input; the first cell of the parsed row is comma- and quote-free. -/
theorem c10_witness :
    ',' ∉ ("a".toList : Str) ∧ '"' ∉ ("a".toList : Str) ∧
    ',' ∉ ("x".toList : Str) ∧ '"' ∉ ("x".toList : Str) := by
  have h := (c10_quotes_and_commas ("a,b\n\"x,y\",z".toList)
      [("a".toList, "x".toList), ("b".toList, "y".toList)]
      ("a".toList, "x".toList)).1
  exact h (by decide) (by decide)

/-- C8: the parser is total and returns `[]` (rather than throwing) when
fewer than 2 non-blank lines exist; otherwise it returns one mapping
per data line — keyed, in order, by the header names of the first
non-blank line — and a field beyond the end of a short data line
defaults to the empty string. -/
theorem c8_parser_contract (text hd line : Str) (rest hs : List Str) (i : Nat) :
    ((nonblankLines text).length < 2 → parseCSV text = []) ∧
    (nonblankLines text = hd :: rest → parseCSV text = rest.map (csvRow (csvHeaders hd))) ∧
    (2 ≤ (nonblankLines text).length →
      (parseCSV text).length = (nonblankLines text).length - 1) ∧
    ((csvRow hs line).map Prod.fst = hs) ∧
    ((csvCells line).length ≤ i →
      (csvRow hs line)[i]? = hs[i]?.map (fun h => (h, ([] : Str)))) := by
  refine ⟨?_, ?_, ?_, ?_, ?_⟩
  · intro h
    simp [parseCSV, h]
  · intro h
    cases rest with
    | nil => simp [parseCSV, h]
    | cons l ls => simp [parseCSV, h]
  · intro h
    have hlt : ¬(nonblankLines text).length < 2 := by omega
    simp [parseCSV, hlt]
  · simp only [csvRow, List.map_map]
    have : (Prod.fst ∘ fun p : Nat × Str => (p.2, (csvCells line).getD p.1 [])) =
        Prod.snd := rfl
    rw [this, List.enum_map_snd]
  · intro h
    simp only [csvRow, List.getElem?_map, List.getElem?_enum]
    cases hs[i]? with
    | none => rfl
    | some a =>
      simp [List.getD_eq_getElem?_getD, List.getElem?_eq_none h]

/-- C8, witness: on a concrete two-line input with a short data row the
contract yields the row keyed by the headers, the missing trailing
field defaulting to the empty string. -/
theorem c8_witness :
    parseCSV ("a,b\nx".toList) = [[("a".toList, "x".toList), ("b".toList, [])]] := by
  have h := (c8_parser_contract ("a,b\nx".toList) ("a,b".toList) [] ["x".toList] [] 0).2.1
    (by decide)
  exact h.trans (by decide)

theorem seasonTitlePhase_dry (env : RunEnv) (season : Season) (acc : RunAcc)
    (h : env.options.dryRun = true) :
    (seasonTitlePhase env season acc).calls = acc.calls ∧
    (seasonTitlePhase env season acc).totalUpdates = acc.totalUpdates := by
  unfold seasonTitlePhase
  cases seasonInfoFor env season with
  | none => exact ⟨rfl, rfl⟩
  | some si =>
    by_cases hc : env.options.seasonTitle ∧ si.title_en ≠ [] ∧ si.title_en ≠ season.title
    · simp [hc, h]
    · simp [hc]

theorem seasonDescPhase_dry (env : RunEnv) (season : Season) (acc : RunAcc)
    (h : env.options.dryRun = true) :
    (seasonDescPhase env season acc).calls = acc.calls ∧
    (seasonDescPhase env season acc).totalUpdates = acc.totalUpdates := by
  unfold seasonDescPhase
  cases seasonInfoFor env season with
  | none => exact ⟨rfl, rfl⟩
  | some si =>
    by_cases hc : env.options.description ∧ si.description_en ≠ []
    · simp [hc, h]
    · simp [hc]

theorem processEpisodeBody_dry (env : RunEnv) (lookup : List (Str × EpisodeData))
    (season : Season) (ep : Episode) (acc : RunAcc) (h : env.options.dryRun = true) :
    (processEpisodeBody env lookup season ep acc).calls = acc.calls ∧
    (processEpisodeBody env lookup season ep acc).totalUpdates = acc.totalUpdates := by
  unfold processEpisodeBody
  cases objGet lookup (natToStr season.number ++ '-' :: natToStr ep.number) with
  | none => exact ⟨rfl, rfl⟩
  | some epData =>
    by_cases hu : (computeUpdates env ep epData).isEmpty = true
    · simp [hu]
    · simp [hu, h]

theorem processEpisodes_dry (env : RunEnv) (lookup : List (Str × EpisodeData))
    (season : Season) (h : env.options.dryRun = true) :
    ∀ (eps : List Episode) (fl : Option Nat) (acc : RunAcc),
      (processEpisodes env lookup season eps fl acc).2.calls = acc.calls ∧
      (processEpisodes env lookup season eps fl acc).2.totalUpdates = acc.totalUpdates := by
  intro eps
  induction eps with
  | nil => intro fl acc; exact ⟨rfl, rfl⟩
  | cons ep rest ih =>
    intro fl acc
    simp only [processEpisodes]
    cases hcc : checkCancel fl with
    | mk c fl' =>
      cases c with
      | true => exact ⟨rfl, rfl⟩
      | false =>
        have hb := processEpisodeBody_dry env lookup season ep acc h
        have hr := ih fl' (processEpisodeBody env lookup season ep acc)
        exact ⟨hr.1.trans hb.1, hr.2.trans hb.2⟩

theorem processSeasons_dry (env : RunEnv) (lookup : List (Str × EpisodeData))
    (h : env.options.dryRun = true) :
    ∀ (ss : List Season) (fl : Option Nat) (acc : RunAcc),
      (processSeasons env lookup ss fl acc).2.calls = acc.calls ∧
      (processSeasons env lookup ss fl acc).2.totalUpdates = acc.totalUpdates := by
  intro ss
  induction ss with
  | nil => intro fl acc; exact ⟨rfl, rfl⟩
  | cons season rest ih =>
    intro fl acc
    simp only [processSeasons]
    cases hcc : checkCancel fl with
    | mk c fl' =>
      cases c with
      | true => exact ⟨rfl, rfl⟩
      | false =>
        have ht := seasonTitlePhase_dry env season acc h
        have hd := seasonDescPhase_dry env season (seasonTitlePhase env season acc) h
        have he := processEpisodes_dry env lookup season h season.episodes fl'
          (seasonDescPhase env season (seasonTitlePhase env season acc))
        have hr := ih (processSeason env lookup season fl' acc).1
          (processSeason env lookup season fl' acc).2
        refine ⟨hr.1.trans ?_, hr.2.trans ?_⟩
        · exact (he.1.trans (hd.1.trans ht.1))
        · exact (he.2.trans (hd.2.trans ht.2))

/-- C2: with `dryRun` checked, a run never attempts an
`updateMetadata` call — on any season or episode — and the final
updated-count it reports is 0, whatever the service, the other
options, the datasets, the catalog, the adapter behaviour and the
cancellation timing. -/
theorem c2_dry_run_purity (svc : Service) (t st d dt p : Bool)
    (sf : Except Unit SheetsData) (shf : Except Unit (List Season))
    (uOk : Nat → Bool) (cA : Option Nat) :
    (applyOnePaceEdits ⟨svc, ⟨t, st, d, dt, p, true⟩, sf, shf, uOk, cA⟩).calls = [] ∧
    (applyOnePaceEdits ⟨svc, ⟨t, st, d, dt, p, true⟩, sf, shf, uOk, cA⟩).totalUpdates = 0 := by
  cases sf with
  | error e => exact ⟨rfl, rfl⟩
  | ok sheets =>
    cases shf with
    | error e => exact ⟨rfl, rfl⟩
    | ok seasons =>
      have hd := processSeasons_dry
        ⟨svc, ⟨t, st, d, dt, p, true⟩, sheets.seasonMapping, sheets.releaseData, uOk⟩
        (buildEpisodeLookup sheets.episodeData (buildTitleToSeason sheets.seasonMapping))
        rfl seasons cA ⟨0, [.loadedSheets, .loadedMetadata seasons.length], []⟩
      exact ⟨hd.1, hd.2⟩

/-- The update-success log lines: `Updated Season … title`, `Updated
Season … description`, `Updated SxxEyy: …`. -/
def isUpdateSuccessLog : LogEvent → Bool
  | .seasonTitleUpdated _ _ => true
  | .seasonDescUpdated _ => true
  | .episodeUpdated _ _ _ => true
  | _ => false

theorem seasonTitlePhase_jellyfin_calls (env : RunEnv) (season : Season) (acc : RunAcc)
    (h : env.service = Service.jellyfin) :
    (seasonTitlePhase env season acc).calls = acc.calls := by
  unfold seasonTitlePhase
  cases seasonInfoFor env season with
  | none => rfl
  | some si =>
    by_cases hc : env.options.seasonTitle ∧ si.title_en ≠ [] ∧ si.title_en ≠ season.title
    · by_cases hd : env.options.dryRun = true
      · simp [hc, hd]
      · simp [hc, hd, h]
    · simp [hc]

theorem seasonDescPhase_jellyfin_calls (env : RunEnv) (season : Season) (acc : RunAcc)
    (h : env.service = Service.jellyfin) :
    (seasonDescPhase env season acc).calls = acc.calls := by
  unfold seasonDescPhase
  cases seasonInfoFor env season with
  | none => rfl
  | some si =>
    by_cases hc : env.options.description ∧ si.description_en ≠ []
    · by_cases hd : env.options.dryRun = true
      · simp [hc, hd]
      · simp [hc, hd, h]
    · simp [hc]

theorem processEpisodeBody_jellyfin_calls (env : RunEnv) (lookup : List (Str × EpisodeData))
    (season : Season) (ep : Episode) (acc : RunAcc)
    (h : env.service = Service.jellyfin) :
    (processEpisodeBody env lookup season ep acc).calls = acc.calls := by
  unfold processEpisodeBody
  cases objGet lookup (natToStr season.number ++ '-' :: natToStr ep.number) with
  | none => rfl
  | some epData =>
    by_cases hu : (computeUpdates env ep epData).isEmpty = true
    · simp [hu]
    · by_cases hd : env.options.dryRun = true
      · simp [hu, hd]
      · simp [hu, hd, h]

theorem processEpisodes_jellyfin_calls (env : RunEnv) (lookup : List (Str × EpisodeData))
    (season : Season) (h : env.service = Service.jellyfin) :
    ∀ (eps : List Episode) (fl : Option Nat) (acc : RunAcc),
      (processEpisodes env lookup season eps fl acc).2.calls = acc.calls := by
  intro eps
  induction eps with
  | nil => intro fl acc; rfl
  | cons ep rest ih =>
    intro fl acc
    simp only [processEpisodes]
    cases hcc : checkCancel fl with
    | mk c fl' =>
      cases c with
      | true => rfl
      | false =>
        exact (ih fl' (processEpisodeBody env lookup season ep acc)).trans
          (processEpisodeBody_jellyfin_calls env lookup season ep acc h)

theorem processSeasons_jellyfin_calls (env : RunEnv) (lookup : List (Str × EpisodeData))
    (h : env.service = Service.jellyfin) :
    ∀ (ss : List Season) (fl : Option Nat) (acc : RunAcc),
      (processSeasons env lookup ss fl acc).2.calls = acc.calls := by
  intro ss
  induction ss with
  | nil => intro fl acc; rfl
  | cons season rest ih =>
    intro fl acc
    simp only [processSeasons]
    cases hcc : checkCancel fl with
    | mk c fl' =>
      cases c with
      | true => rfl
      | false =>
        refine (ih _ _).trans ?_
        refine (processEpisodes_jellyfin_calls env lookup season h season.episodes fl' _).trans ?_
        exact (seasonDescPhase_jellyfin_calls env season _ h).trans
          (seasonTitlePhase_jellyfin_calls env season acc h)

theorem seasonTitlePhase_success_count (env : RunEnv) (season : Season) (acc : RunAcc) :
    (seasonTitlePhase env season acc).totalUpdates +
        acc.logs.countP isUpdateSuccessLog =
      acc.totalUpdates +
        (seasonTitlePhase env season acc).logs.countP isUpdateSuccessLog := by
  unfold seasonTitlePhase
  cases seasonInfoFor env season with
  | none => rfl
  | some si =>
    by_cases hc : env.options.seasonTitle ∧ si.title_en ≠ [] ∧ si.title_en ≠ season.title
    · by_cases hd : env.options.dryRun = true
      · simp [hc, hd, List.countP_append, isUpdateSuccessLog]
      · by_cases hp : env.service = Service.plex
        · by_cases ho : env.updateOk season.id = true
          · simp [hc, hd, hp, ho, List.countP_append, List.countP_singleton,
              isUpdateSuccessLog]
            omega
          · simp [hc, hd, hp, ho, List.countP_append, List.countP_singleton,
              isUpdateSuccessLog]
        · simp [hc, hd, hp, List.countP_append, List.countP_singleton,
            isUpdateSuccessLog]
          omega
    · simp [hc]

theorem seasonDescPhase_success_count (env : RunEnv) (season : Season) (acc : RunAcc) :
    (seasonDescPhase env season acc).totalUpdates +
        acc.logs.countP isUpdateSuccessLog =
      acc.totalUpdates +
        (seasonDescPhase env season acc).logs.countP isUpdateSuccessLog := by
  unfold seasonDescPhase
  cases seasonInfoFor env season with
  | none => rfl
  | some si =>
    by_cases hc : env.options.description ∧ si.description_en ≠ []
    · by_cases hd : env.options.dryRun = true
      · simp [hc, hd, List.countP_append, isUpdateSuccessLog]
      · by_cases hp : env.service = Service.plex
        · by_cases ho : env.updateOk season.id = true
          · simp [hc, hd, hp, ho, List.countP_append, List.countP_singleton,
              isUpdateSuccessLog]
            omega
          · simp [hc, hd, hp, ho, List.countP_append, List.countP_singleton,
              isUpdateSuccessLog]
        · simp [hc, hd, hp, List.countP_append, List.countP_singleton,
            isUpdateSuccessLog]
          omega
    · simp [hc]

theorem processEpisodeBody_success_count (env : RunEnv) (lookup : List (Str × EpisodeData))
    (season : Season) (ep : Episode) (acc : RunAcc) :
    (processEpisodeBody env lookup season ep acc).totalUpdates +
        acc.logs.countP isUpdateSuccessLog =
      acc.totalUpdates +
        (processEpisodeBody env lookup season ep acc).logs.countP isUpdateSuccessLog := by
  unfold processEpisodeBody
  cases objGet lookup (natToStr season.number ++ '-' :: natToStr ep.number) with
  | none => simp [List.countP_append, isUpdateSuccessLog]
  | some epData =>
    by_cases hu : (computeUpdates env ep epData).isEmpty = true
    · simp [hu, List.countP_append, isUpdateSuccessLog]
    · by_cases hd : env.options.dryRun = true
      · simp [hu, hd, List.countP_append, isUpdateSuccessLog]
      · by_cases hp : env.service = Service.plex
        · by_cases ho : env.updateOk ep.id = true
          · simp [hu, hd, hp, ho, List.countP_append, List.countP_singleton,
              isUpdateSuccessLog]
            omega
          · simp [hu, hd, hp, ho, List.countP_append, List.countP_singleton,
              isUpdateSuccessLog]
        · simp [hu, hd, hp, List.countP_append, List.countP_singleton,
            isUpdateSuccessLog]
          omega

theorem processEpisodes_success_count (env : RunEnv) (lookup : List (Str × EpisodeData))
    (season : Season) :
    ∀ (eps : List Episode) (fl : Option Nat) (acc : RunAcc),
      (processEpisodes env lookup season eps fl acc).2.totalUpdates +
          acc.logs.countP isUpdateSuccessLog =
        acc.totalUpdates +
          (processEpisodes env lookup season eps fl acc).2.logs.countP
            isUpdateSuccessLog := by
  intro eps
  induction eps with
  | nil => intro fl acc; rfl
  | cons ep rest ih =>
    intro fl acc
    simp only [processEpisodes]
    cases hcc : checkCancel fl with
    | mk c fl' =>
      cases c with
      | true => rfl
      | false =>
        dsimp only
        have hb := processEpisodeBody_success_count env lookup season ep acc
        have hr := ih fl' (processEpisodeBody env lookup season ep acc)
        omega

theorem processSeasons_success_count (env : RunEnv) (lookup : List (Str × EpisodeData)) :
    ∀ (ss : List Season) (fl : Option Nat) (acc : RunAcc),
      (processSeasons env lookup ss fl acc).2.totalUpdates +
          acc.logs.countP isUpdateSuccessLog =
        acc.totalUpdates +
          (processSeasons env lookup ss fl acc).2.logs.countP isUpdateSuccessLog := by
  intro ss
  induction ss with
  | nil => intro fl acc; rfl
  | cons season rest ih =>
    intro fl acc
    simp only [processSeasons]
    cases hcc : checkCancel fl with
    | mk c fl' =>
      cases c with
      | true =>
        simp [List.countP_append, isUpdateSuccessLog]
      | false =>
        have ht := seasonTitlePhase_success_count env season acc
        have hd := seasonDescPhase_success_count env season (seasonTitlePhase env season acc)
        have he := processEpisodes_success_count env lookup season season.episodes fl'
          (seasonDescPhase env season (seasonTitlePhase env season acc))
        have hr := ih (processSeason env lookup season fl' acc).1
          (processSeason env lookup season fl' acc).2
        dsimp only
        simp only [processSeason] at hr ⊢
        omega

/-- C9: in a live (non-dry) Jellyfin run, no `updateMetadata` call is
ever attempted (only the Plex branch performs the call), yet every
season or episode needing an update still gets an update-success log
line and the global updated-count equals the number of those success
lines. -/
theorem c9_jellyfin_no_call (t st d dt p : Bool) (sf : Except Unit SheetsData)
    (shf : Except Unit (List Season)) (uOk : Nat → Bool) (cA : Option Nat) :
    (applyOnePaceEdits ⟨Service.jellyfin, ⟨t, st, d, dt, p, false⟩, sf, shf, uOk, cA⟩).calls
        = [] ∧
    (applyOnePaceEdits
        ⟨Service.jellyfin, ⟨t, st, d, dt, p, false⟩, sf, shf, uOk, cA⟩).totalUpdates =
      (applyOnePaceEdits
        ⟨Service.jellyfin, ⟨t, st, d, dt, p, false⟩, sf, shf, uOk, cA⟩).logs.countP
        isUpdateSuccessLog := by
  cases sf with
  | error e => exact ⟨rfl, rfl⟩
  | ok sheets =>
    cases shf with
    | error e => exact ⟨rfl, rfl⟩
    | ok seasons =>
      have hc := processSeasons_jellyfin_calls
        ⟨Service.jellyfin, ⟨t, st, d, dt, p, false⟩, sheets.seasonMapping,
          sheets.releaseData, uOk⟩
        (buildEpisodeLookup sheets.episodeData (buildTitleToSeason sheets.seasonMapping))
        rfl seasons cA ⟨0, [.loadedSheets, .loadedMetadata seasons.length], []⟩
      have hs := processSeasons_success_count
        ⟨Service.jellyfin, ⟨t, st, d, dt, p, false⟩, sheets.seasonMapping,
          sheets.releaseData, uOk⟩
        (buildEpisodeLookup sheets.episodeData (buildTitleToSeason sheets.seasonMapping))
        seasons cA ⟨0, [.loadedSheets, .loadedMetadata seasons.length], []⟩
      refine ⟨hc, ?_⟩
      show _ = List.countP isUpdateSuccessLog (_ ++ [.finishedSummary _])
      rw [List.countP_append]
      simpa [isUpdateSuccessLog] using hs

/-- The per-episode log lines: exactly one of these is written for every
episode iteration that is reached. -/
def isEpisodeLog : LogEvent → Bool
  | .episodeNoData _ _ => true
  | .episodeWouldUpdate _ _ _ => true
  | .episodeUpdated _ _ _ => true
  | .episodeUpdateFailed _ _ => true
  | .episodeNoUpdates _ _ => true
  | _ => false

/-- The total number of catalog episodes across all seasons. -/
def totalEpisodes (ss : List Season) : Nat :=
  (ss.map (fun s => s.episodes.length)).sum

theorem processEpisodeBody_episode_count (env : RunEnv) (lookup : List (Str × EpisodeData))
    (season : Season) (ep : Episode) (acc : RunAcc) :
    (processEpisodeBody env lookup season ep acc).logs.countP isEpisodeLog =
      acc.logs.countP isEpisodeLog + 1 := by
  unfold processEpisodeBody
  cases objGet lookup (natToStr season.number ++ '-' :: natToStr ep.number) with
  | none => simp [List.countP_append, List.countP_singleton, isEpisodeLog]
  | some epData =>
    by_cases hu : (computeUpdates env ep epData).isEmpty = true
    · simp [hu, List.countP_append, List.countP_singleton, isEpisodeLog]
    · by_cases hd : env.options.dryRun = true
      · simp [hu, hd, List.countP_append, List.countP_singleton, isEpisodeLog]
      · by_cases hp : env.service = Service.plex
        · by_cases ho : env.updateOk ep.id = true
          · simp [hu, hd, hp, ho, List.countP_append, List.countP_singleton, isEpisodeLog]
          · simp [hu, hd, hp, ho, List.countP_append, List.countP_singleton, isEpisodeLog]
        · simp [hu, hd, hp, List.countP_append, List.countP_singleton, isEpisodeLog]

theorem seasonTitlePhase_episode_count (env : RunEnv) (season : Season) (acc : RunAcc) :
    (seasonTitlePhase env season acc).logs.countP isEpisodeLog =
      acc.logs.countP isEpisodeLog := by
  unfold seasonTitlePhase
  cases seasonInfoFor env season with
  | none => rfl
  | some si =>
    by_cases hc : env.options.seasonTitle ∧ si.title_en ≠ [] ∧ si.title_en ≠ season.title
    · by_cases hd : env.options.dryRun = true
      · simp [hc, hd, List.countP_append, List.countP_singleton, isEpisodeLog]
      · by_cases hp : env.service = Service.plex
        · by_cases ho : env.updateOk season.id = true
          · simp [hc, hd, hp, ho, List.countP_append, List.countP_singleton, isEpisodeLog]
          · simp [hc, hd, hp, ho, List.countP_append, List.countP_singleton, isEpisodeLog]
        · simp [hc, hd, hp, List.countP_append, List.countP_singleton, isEpisodeLog]
    · simp [hc]

theorem seasonDescPhase_episode_count (env : RunEnv) (season : Season) (acc : RunAcc) :
    (seasonDescPhase env season acc).logs.countP isEpisodeLog =
      acc.logs.countP isEpisodeLog := by
  unfold seasonDescPhase
  cases seasonInfoFor env season with
  | none => rfl
  | some si =>
    by_cases hc : env.options.description ∧ si.description_en ≠ []
    · by_cases hd : env.options.dryRun = true
      · simp [hc, hd, List.countP_append, List.countP_singleton, isEpisodeLog]
      · by_cases hp : env.service = Service.plex
        · by_cases ho : env.updateOk season.id = true
          · simp [hc, hd, hp, ho, List.countP_append, List.countP_singleton, isEpisodeLog]
          · simp [hc, hd, hp, ho, List.countP_append, List.countP_singleton, isEpisodeLog]
        · simp [hc, hd, hp, List.countP_append, List.countP_singleton, isEpisodeLog]
    · simp [hc]

theorem processEpisodes_none_episode_count (env : RunEnv) (lookup : List (Str × EpisodeData))
    (season : Season) :
    ∀ (eps : List Episode) (acc : RunAcc),
      (processEpisodes env lookup season eps none acc).1 = none ∧
      (processEpisodes env lookup season eps none acc).2.logs.countP isEpisodeLog =
        acc.logs.countP isEpisodeLog + eps.length := by
  intro eps
  induction eps with
  | nil => intro acc; exact ⟨rfl, rfl⟩
  | cons ep rest ih =>
    intro acc
    simp only [processEpisodes, checkCancel]
    have hb := processEpisodeBody_episode_count env lookup season ep acc
    have hr := ih (processEpisodeBody env lookup season ep acc)
    refine ⟨hr.1, ?_⟩
    rw [hr.2, hb]
    simp [List.length_cons]
    omega

theorem processSeasons_none_episode_count (env : RunEnv) (lookup : List (Str × EpisodeData)) :
    ∀ (ss : List Season) (acc : RunAcc),
      (processSeasons env lookup ss none acc).2.logs.countP isEpisodeLog =
        acc.logs.countP isEpisodeLog + totalEpisodes ss := by
  intro ss
  induction ss with
  | nil => intro acc; simp [totalEpisodes, processSeasons]
  | cons season rest ih =>
    intro acc
    simp only [processSeasons, checkCancel, processSeason]
    have he := processEpisodes_none_episode_count env lookup season season.episodes
      (seasonDescPhase env season (seasonTitlePhase env season acc))
    have h1 := seasonTitlePhase_episode_count env season acc
    have h2 := seasonDescPhase_episode_count env season (seasonTitlePhase env season acc)
    rw [he.1]
    rw [ih (processEpisodes env lookup season season.episodes none
      (seasonDescPhase env season (seasonTitlePhase env season acc))).2]
    rw [he.2, h2, h1]
    simp [totalEpisodes]
    omega

/-- C5: a failed `updateMetadata` call on a single season or episode is
recorded as an error-level log line and never aborts the run — for ANY
per-item failure pattern `uOk` the run still reaches every episode of
every season (one per-episode log line each); by contrast a failed
sheets load or a failed show-metadata fetch aborts the run with an
error and no processing at all. -/
theorem c5_failure_isolation (svc : Service) (o : UpdateOptions) (sheets : SheetsData)
    (seasons : List Season) (shf : Except Unit (List Season)) (uOk : Nat → Bool)
    (cA : Option Nat) (sn en : Nat) :
    applyOnePaceEdits ⟨svc, o, .error (), shf, uOk, cA⟩ =
      ⟨[.errorDuringUpdate], [], 0⟩ ∧
    applyOnePaceEdits ⟨svc, o, .ok sheets, .error (), uOk, cA⟩ =
      ⟨[.loadedSheets, .errorDuringUpdate], [], 0⟩ ∧
    (applyOnePaceEdits ⟨svc, o, .ok sheets, .ok seasons, uOk, none⟩).logs.countP
        isEpisodeLog = totalEpisodes seasons ∧
    (LogEvent.episodeUpdateFailed sn en).level = Level.error ∧
    (LogEvent.seasonTitleUpdateFailed sn).level = Level.error ∧
    (LogEvent.seasonDescUpdateFailed sn).level = Level.error := by
  refine ⟨rfl, rfl, ?_, rfl, rfl, rfl⟩
  have hc := processSeasons_none_episode_count
    ⟨svc, o, sheets.seasonMapping, sheets.releaseData, uOk⟩
    (buildEpisodeLookup sheets.episodeData (buildTitleToSeason sheets.seasonMapping))
    seasons ⟨0, [.loadedSheets, .loadedMetadata seasons.length], []⟩
  show List.countP isEpisodeLog (_ ++ [.finishedSummary _]) = _
  rw [List.countP_append]
  simpa [isEpisodeLog] using hc

/-- The number of cancellation-flag checks a full pass over these
seasons performs: one at the top of each season iteration plus one per
episode. -/
def checksOf (ss : List Season) : Nat :=
  (ss.map (fun s => 1 + s.episodes.length)).sum

theorem processEpisodes_none_fst (env : RunEnv) (lookup : List (Str × EpisodeData))
    (season : Season) :
    ∀ (eps : List Episode) (acc : RunAcc),
      (processEpisodes env lookup season eps none acc).1 = none := by
  intro eps
  induction eps with
  | nil => intro acc; rfl
  | cons ep rest ih =>
    intro acc
    simp only [processEpisodes, checkCancel]
    exact ih (processEpisodeBody env lookup season ep acc)

theorem processEpisodes_countdown (env : RunEnv) (lookup : List (Str × EpisodeData))
    (season : Season) :
    ∀ (eps : List Episode) (m : Nat) (acc : RunAcc),
      processEpisodes env lookup season eps (some (eps.length + m)) acc =
        (some m, (processEpisodes env lookup season eps none acc).2) := by
  intro eps
  induction eps with
  | nil =>
    intro m acc
    simp [processEpisodes]
  | cons ep rest ih =>
    intro m acc
    have harith : (ep :: rest).length + m = (rest.length + m) + 1 := by
      simp [List.length_cons]; omega
    rw [harith]
    simp only [processEpisodes, checkCancel]
    exact ih m (processEpisodeBody env lookup season ep acc)

theorem processSeasons_cancel_split (env : RunEnv) (lookup : List (Str × EpisodeData)) :
    ∀ (pre : List Season) (s : Season) (post : List Season) (acc : RunAcc),
      processSeasons env lookup (pre ++ s :: post) (some (checksOf pre)) acc =
        (some 0,
          { (processSeasons env lookup pre none acc).2 with
            logs := (processSeasons env lookup pre none acc).2.logs ++
              [.cancelledByUser] }) := by
  intro pre
  induction pre with
  | nil =>
    intro s post acc
    show processSeasons env lookup (s :: post) (some 0) acc = _
    simp only [processSeasons, checkCancel]
  | cons p pre' ih =>
    intro s post acc
    have harith : checksOf (p :: pre') = (p.episodes.length + checksOf pre') + 1 := by
      simp [checksOf]; omega
    rw [List.cons_append, harith]
    simp only [processSeasons, checkCancel, processSeason]
    rw [processEpisodes_countdown env lookup p p.episodes (checksOf pre')
      (seasonDescPhase env p (seasonTitlePhase env p acc))]
    rw [processEpisodes_none_fst env lookup p p.episodes
      (seasonDescPhase env p (seasonTitlePhase env p acc))]
    exact ih s post (processEpisodes env lookup p p.episodes none
      (seasonDescPhase env p (seasonTitlePhase env p acc))).2

/-- C4: if the cancellation flag becomes visible exactly after season
`k`'s processing completes and before season `k+1` begins (the
countdown equals the number of flag checks a full pass over the first
`k` seasons performs), the run is identical to an uncancelled run over
only the first `k` seasons followed by the "Operation cancelled by
user" warning: no episode of seasons `k+1..n` is processed, and every
update call already made in seasons `1..k` (and the counter) is
retained unchanged — there is no rollback. -/
theorem c4_cancellation (env : RunEnv) (lookup : List (Str × EpisodeData))
    (seasons : List Season) (k : Nat) (acc : RunAcc) (hk : k < seasons.length) :
    processSeasons env lookup seasons (some (checksOf (seasons.take k))) acc =
      (some 0,
        { (processSeasons env lookup (seasons.take k) none acc).2 with
          logs := (processSeasons env lookup (seasons.take k) none acc).2.logs ++
            [.cancelledByUser] }) := by
  obtain ⟨s, post, hd⟩ : ∃ s post, seasons.drop k = s :: post := by
    cases hdk : seasons.drop k with
    | nil =>
      exfalso
      have hlen : (seasons.drop k).length = seasons.length - k := List.length_drop k seasons
      rw [hdk] at hlen
      simp at hlen
      omega
    | cons s post => exact ⟨s, post, rfl⟩
  have h2 : seasons = seasons.take k ++ s :: post := by
    rw [← hd, List.take_append_drop]
  set pre := seasons.take k with hpre
  rw [h2]
  exact processSeasons_cancel_split env lookup pre s post acc

/-- C4, witness: two one-episode seasons, flag visible after season 1:
the run equals the uncancelled run over season 1 plus the warning. -/
theorem c4_witness :
    processSeasons ⟨Service.plex, ⟨true, true, true, true, false, false⟩, [], [],
        fun _ => true⟩ []
      [⟨1, 1, [], [⟨11, 1, [], [], []⟩]⟩, ⟨2, 2, [], [⟨21, 1, [], [], []⟩]⟩]
      (some (checksOf ([⟨1, 1, [], [⟨11, 1, [], [], []⟩]⟩,
        ⟨2, 2, [], [⟨21, 1, [], [], []⟩]⟩].take 1)))
      ⟨0, [], []⟩ =
    (some 0,
      { (processSeasons ⟨Service.plex, ⟨true, true, true, true, false, false⟩, [], [],
          fun _ => true⟩ []
          ([⟨1, 1, [], [⟨11, 1, [], [], []⟩]⟩,
            ⟨2, 2, [], [⟨21, 1, [], [], []⟩]⟩].take 1) none ⟨0, [], []⟩).2 with
        logs := (processSeasons ⟨Service.plex, ⟨true, true, true, true, false, false⟩,
          [], [], fun _ => true⟩ []
          ([⟨1, 1, [], [⟨11, 1, [], [], []⟩]⟩,
            ⟨2, 2, [], [⟨21, 1, [], [], []⟩]⟩].take 1) none ⟨0, [], []⟩).2.logs ++
          [.cancelledByUser] }) :=
  c4_cancellation ⟨Service.plex, ⟨true, true, true, true, false, false⟩, [], [],
      fun _ => true⟩ []
    [⟨1, 1, [], [⟨11, 1, [], [], []⟩]⟩, ⟨2, 2, [], [⟨21, 1, [], [], []⟩]⟩] 1
    ⟨0, [], []⟩ (by decide)
